import Mathlib

/-!
Shallow embedding of the client-side event-storage and sync layer of the
church-website repository (source file: the IndexedDB/localStorage wrapper
module, `src/utils/storage.ts`).

Modelling conventions:
* JS objects of the Event shape are embedded as a structure whose optional
  fields are `Option`; `none` models an absent key (JSON.stringify omits
  keys whose value is `undefined`, so absent and `undefined` coincide on
  every path exercised here).
* The IndexedDB object store (name `events`, keyPath `id`) is modelled as a
  list of events on which `store.put` upserts by `id` (`idbPut`); ordering
  inside the store is irrelevant to every statement proved below.
* The localStorage slot under the key `churchEvents` is modelled by
  `Option LegacyValue`: `none` is an absent key, `LegacyValue.events evs`
  is a string that `JSON.parse` maps to the event array `evs` (e.g. the
  output of `JSON.stringify evs`), and `LegacyValue.corrupt` is a string
  that `JSON.parse` rejects with a SyntaxError (e.g. a lone brace).
* Storage faults (IndexedDB open or transaction failure) are an input of
  each operation: the Boolean `idbFault` says whether the IndexedDB path of
  the call fails; the model fails before mutating anything, matching the
  common failure point (open / transaction creation).
* Remote HTTP outcomes are inputs of the sync operations: a success value
  carrying the parsed body, a non-2xx response, or a rejected fetch.
* An async function that throws/rejects is modelled by `Except JsError`.
-/

structure MediaItem where
  id : String
  type : String
  url : String
  caption : Option String := none
deriving DecidableEq, Repr

structure Event where
  id : String
  title : Option String := none
  description : Option String := none
  date : Option String := none
  displayDate : Option String := none
  time : Option String := none
  location : Option String := none
  category : Option String := none
  image : Option String := none
  media : Option (List MediaItem) := none
  registrationRequired : Option Bool := none
  registrationLink : Option String := none
  createdAt : Option String := none
  updatedAt : Option String := none
deriving DecidableEq, Repr

/-- The `eventData` argument of `createEventWithSync`: a JS object of the
Event shape in which every key, including `id`, may be absent. -/
structure EventData where
  id : Option String := none
  title : Option String := none
  description : Option String := none
  date : Option String := none
  displayDate : Option String := none
  time : Option String := none
  location : Option String := none
  category : Option String := none
  image : Option String := none
  media : Option (List MediaItem) := none
  registrationRequired : Option Bool := none
  registrationLink : Option String := none
  createdAt : Option String := none
  updatedAt : Option String := none
deriving DecidableEq, Repr

inductive JsError where
  | idbError
  | syntaxError
  | uriError
deriving DecidableEq, Repr

/-- Value held in the localStorage key `churchEvents`. -/
inductive LegacyValue where
  | events (evs : List Event)
  | corrupt
deriving DecidableEq, Repr

structure StorageState where
  idb : List Event
  legacy : Option LegacyValue
deriving DecidableEq, Repr

/-- Model of the JS builtin `JSON.parse` applied to the legacy slot: a
well-formed string yields its event array, a malformed one throws a
SyntaxError. -/
def jsonParseEvents : LegacyValue → Except JsError (List Event)
  | LegacyValue.events evs => Except.ok evs
  | LegacyValue.corrupt => Except.error JsError.syntaxError

/-- Model of the JS builtin `String.prototype.startsWith` (char lists). -/
def listStartsWith : List Char → List Char → Bool
  | _, [] => true
  | [], _ :: _ => false
  | a :: as, b :: bs => a == b && listStartsWith as bs

/-- Model of the JS builtin `String.prototype.startsWith`. -/
def jsStartsWith (s pat : String) : Bool :=
  listStartsWith s.data pat.data

def listContainsSub (pat : List Char) : List Char → Bool
  | [] => listStartsWith [] pat
  | c :: rest => listStartsWith (c :: rest) pat || listContainsSub pat rest

/-- Model of the JS builtin `String.prototype.includes`. -/
def jsIncludes (s pat : String) : Bool :=
  listContainsSub pat.data s.data

/-- Fuel-indexed worker for `jsSplit`; the fuel is at least the length of
the remaining input plus one, so the base case is never reached. -/
def jsSplitLoop (sep : List Char) : Nat → List Char → List Char → List (List Char)
  | 0, l, acc => [acc.reverse ++ l]
  | fuel + 1, l, acc =>
    match l with
    | [] => [acc.reverse]
    | c :: rest =>
      if listStartsWith (c :: rest) sep then
        acc.reverse :: jsSplitLoop sep fuel ((c :: rest).drop sep.length) []
      else
        jsSplitLoop sep fuel rest (c :: acc)

/-- Model of the JS builtin `String.prototype.split` with a string
separator (non-regexp; a call with the empty separator splits into single
characters, as in JS). -/
def jsSplit (s sep : String) : List String :=
  if sep.data = [] then s.data.map (fun c => String.mk [c])
  else (jsSplitLoop sep.data (s.data.length + 1) s.data []).map String.mk

/-- Model of the JS builtin `Array.prototype.join`. -/
def jsJoin (sep : String) : List String → String
  | [] => ""
  | [x] => x
  | x :: y :: rest => x ++ sep ++ jsJoin sep (y :: rest)

/-- `store.put` on the object store with keyPath `id`: replaces the record
with the same key if present, otherwise adds the record. -/
def idbPut (l : List Event) (e : Event) : List Event :=
  if l.any (fun x => x.id == e.id) then
    l.map (fun x => if x.id == e.id then e else x)
  else
    l ++ [e]

/-- The per-record map applied by `saveAllEvents` when mirroring into the
legacy cache: `{...e, media: e.media?.filter(m => !m.url.startsWith('data:')) || [],
image: e.image?.startsWith('data:') ? '' : e.image}`. -/
def stripEvent (e : Event) : Event :=
  { e with
    media := some (((e.media).getD []).filter (fun m => !(jsStartsWith m.url ("data:"))))
    image :=
      match e.image with
      | some i => if jsStartsWith i ("data:") then some ("") else some i
      | none => none }

/-- `getAllEvents`: reads the full IndexedDB collection; on a storage
fault, falls back to `localStorage.getItem('churchEvents')`, parsing it
when present (`stored ? JSON.parse(stored) : []`).  The parse happens
inside the catch block, so a SyntaxError there rejects the returned
promise. -/
def getAllEvents (idbFault : Bool) (s : StorageState) : Except JsError (List Event) :=
  if idbFault then
    match s.legacy with
    | none => Except.ok []
    | some v => jsonParseEvents v
  else
    Except.ok s.idb

/-- `saveAllEvents`: clears the store, `put`s every given event, then
mirrors the stripped copy into the legacy cache; a storage fault is
rethrown. -/
def saveAllEvents (idbFault : Bool) (events : List Event) (_s : StorageState) :
    Except JsError StorageState :=
  if idbFault then Except.error JsError.idbError
  else
    let idb := events.foldl idbPut []
    let lightweightEvents := events.map stripEvent
    Except.ok { idb := idb, legacy := some (LegacyValue.events lightweightEvents) }

/-- `deleteEvent`: removes the record with the given key from IndexedDB
(the legacy cache is not touched); a storage fault is rethrown. -/
def deleteEvent (idbFault : Bool) (eventId : String) (s : StorageState) :
    Except JsError StorageState :=
  if idbFault then Except.error JsError.idbError
  else Except.ok { s with idb := s.idb.filter (fun e => e.id != eventId) }

/-- `migrateFromLocalStorage`: if the legacy key holds data, parse it and
`saveAllEvents` it; every failure is caught and swallowed. -/
def migrateFromLocalStorage (idbFault : Bool) (s : StorageState) : StorageState :=
  match s.legacy with
  | none => s
  | some v =>
    match jsonParseEvents v with
    | Except.error _ => s
    | Except.ok events =>
      match saveAllEvents idbFault events s with
      | Except.ok snew => snew
      | Except.error _ => s

/-- Outcome of the remote GET in `syncEventsWithSupabase`: a 2xx response
whose parsed body may or may not carry an `events` field, a non-2xx
response, or a rejected fetch / unparseable body. -/
inductive FetchEventsResult where
  | success (eventsField : Option (List Event))
  | httpError
  | networkError
deriving DecidableEq, Repr

/-- `syncEventsWithSupabase`: GET the collection; on non-2xx return
`getAllEvents()`; on success `saveAllEvents` the result (`data.events || []`)
and return it; any rejection inside the try is caught and answered with
`getAllEvents()` (the state is unchanged by then, so the deterministic
retry of a failed read is collapsed into one call). -/
def syncEventsWithSupabase (remote : FetchEventsResult) (idbFault : Bool)
    (s : StorageState) : Except JsError (List Event × StorageState) :=
  match remote with
  | FetchEventsResult.success eventsField =>
    let supabaseEvents := eventsField.getD []
    match saveAllEvents idbFault supabaseEvents s with
    | Except.ok snew => Except.ok (supabaseEvents, snew)
    | Except.error _ => (getAllEvents idbFault s).map (fun evs => (evs, s))
  | FetchEventsResult.httpError =>
    (getAllEvents idbFault s).map (fun evs => (evs, s))
  | FetchEventsResult.networkError =>
    (getAllEvents idbFault s).map (fun evs => (evs, s))

/-- Outcome of the remote POST in `createEventWithSync`. -/
inductive CreateEventResult where
  | success (event : Event)
  | httpError
  | networkError
deriving DecidableEq, Repr

/-- The record synthesized by `createEventWithSync`'s catch block:
`{ id, createdAt: now, updatedAt: now, ...eventData }` — the spread comes
last, so a key present in `eventData` overrides the generated one.
`genId` is the value returned by `crypto.randomUUID()` and `now` the value
of `new Date().toISOString()`. -/
def mkLocalEvent (genId now : String) (d : EventData) : Event :=
  { id := (d.id).getD genId
    title := d.title
    description := d.description
    date := d.date
    displayDate := d.displayDate
    time := d.time
    location := d.location
    category := d.category
    image := d.image
    media := d.media
    registrationRequired := d.registrationRequired
    registrationLink := d.registrationLink
    createdAt := some ((d.createdAt).getD now)
    updatedAt := some ((d.updatedAt).getD now) }

/-- The catch block of `createEventWithSync`: synthesize the record, read
the current snapshot, persist snapshot + record, return the record;
storage failures here propagate (they happen inside the catch). -/
def createEventLocalFallback (idbFault : Bool) (genId now : String) (d : EventData)
    (s : StorageState) : Except JsError (Event × StorageState) :=
  let event := mkLocalEvent genId now d
  match getAllEvents idbFault s with
  | Except.error e => Except.error e
  | Except.ok allEvents =>
    match saveAllEvents idbFault (allEvents ++ [event]) s with
    | Except.ok snew => Except.ok (event, snew)
    | Except.error e => Except.error e

/-- `createEventWithSync`: POST; on success append the server record to the
snapshot and persist; any failure (non-2xx, rejected fetch, or a storage
failure inside the try) lands in the catch block. -/
def createEventWithSync (remote : CreateEventResult) (idbFault : Bool)
    (genId now : String) (d : EventData) (s : StorageState) :
    Except JsError (Event × StorageState) :=
  match remote with
  | CreateEventResult.success newEvent =>
    match getAllEvents idbFault s with
    | Except.error _ => createEventLocalFallback idbFault genId now d s
    | Except.ok allEvents =>
      match saveAllEvents idbFault (allEvents ++ [newEvent]) s with
      | Except.ok snew => Except.ok (newEvent, snew)
      | Except.error _ => createEventLocalFallback idbFault genId now d s
  | CreateEventResult.httpError => createEventLocalFallback idbFault genId now d s
  | CreateEventResult.networkError => createEventLocalFallback idbFault genId now d s

/-- Outcome of the remote DELETE in `deleteEventWithSync`. -/
inductive DeleteEventResult where
  | success
  | httpError
  | networkError
deriving DecidableEq, Repr

/-- `deleteEventWithSync`: DELETE remotely; on success delete locally; any
failure (non-2xx, rejected fetch, or a local failure inside the try) is
caught and answered with the local delete. -/
def deleteEventWithSync (remote : DeleteEventResult) (idbFault : Bool)
    (eventId : String) (s : StorageState) : Except JsError StorageState :=
  match remote with
  | DeleteEventResult.success =>
    match deleteEvent idbFault eventId s with
    | Except.ok snew => Except.ok snew
    | Except.error _ => deleteEvent idbFault eventId s
  | DeleteEventResult.httpError => deleteEvent idbFault eventId s
  | DeleteEventResult.networkError => deleteEvent idbFault eventId s

/-!  Image URL transform helper (`getOptimizedImageUrl`).  The percent
encoding/decoding builtins of the platform are modelled over Unicode
scalar values with UTF-8 percent-encoding; Lean `Char` excludes surrogate
code points, which `encodeURIComponent` rejects anyway. -/

/-- The characters `encodeURIComponent` leaves unescaped:
`A-Z a-z 0-9 - _ . ! ~ * ' ( )`. -/
def isUriUnescaped (c : Char) : Bool :=
  (c ≥ 'A' && c ≤ 'Z') || (c ≥ 'a' && c ≤ 'z') || (c ≥ '0' && c ≤ '9') ||
  c == '-' || c == '_' || c == '.' || c == '!' || c == '~' || c == '*' ||
  c == Char.ofNat 39 || c == '(' || c == ')'

def hexDigitChar (n : Nat) : Char :=
  if n < 10 then Char.ofNat (48 + n) else Char.ofNat (55 + n)

/-- UTF-8 bytes of a Unicode scalar value. -/
def utf8Bytes (n : Nat) : List Nat :=
  if n < 128 then [n]
  else if n < 2048 then [192 + n / 64, 128 + n % 64]
  else if n < 65536 then [224 + n / 4096, 128 + (n / 64) % 64, 128 + n % 64]
  else [240 + n / 262144, 128 + (n / 4096) % 64, 128 + (n / 64) % 64, 128 + n % 64]

def percentEncodeByte (b : Nat) : List Char :=
  ['%', hexDigitChar (b / 16), hexDigitChar (b % 16)]

/-- Model of the JS builtin `encodeURIComponent`. -/
def encodeURIComponent (s : String) : String :=
  String.mk (s.data.foldr
    (fun c acc =>
      if isUriUnescaped c then c :: acc
      else (utf8Bytes c.toNat).foldr (fun b a => percentEncodeByte b ++ a) acc)
    [])

def hexDigitVal (c : Char) : Option Nat :=
  if c ≥ '0' && c ≤ '9' then some (c.toNat - 48)
  else if c ≥ 'A' && c ≤ 'F' then some (c.toNat - 55)
  else if c ≥ 'a' && c ≤ 'f' then some (c.toNat - 87)
  else none

/-- A lexical token of a percent-encoded string: a literal character or
the byte of a `%XX` escape. -/
inductive UriTok where
  | raw (c : Char)
  | byte (b : Nat)
deriving DecidableEq, Repr

/-- Tokenize a percent-encoded string; `none` models the URIError thrown
on a `%` not followed by two hex digits. -/
def percentTokens : List Char → Option (List UriTok)
  | [] => some []
  | '%' :: rest =>
    match rest with
    | a :: b :: rest2 =>
      match hexDigitVal a, hexDigitVal b with
      | some x, some y => (percentTokens rest2).map (fun ts => UriTok.byte (16 * x + y) :: ts)
      | _, _ => none
    | _ => none
  | c :: rest => (percentTokens rest).map (fun ts => UriTok.raw c :: ts)

def contByteVal : UriTok → Option Nat
  | UriTok.byte b => if 128 ≤ b && b < 192 then some (b - 128) else none
  | UriTok.raw _ => none

/-- UTF-8-decode the escape bytes of a token stream; `none` models the
URIError thrown on a malformed byte sequence. -/
def utf8DecodeTokens : List UriTok → Option (List Char)
  | [] => some []
  | UriTok.raw c :: rest => (utf8DecodeTokens rest).map (fun cs => c :: cs)
  | UriTok.byte b :: rest =>
    if b < 128 then (utf8DecodeTokens rest).map (fun cs => Char.ofNat b :: cs)
    else if b < 194 then none
    else if b < 224 then
      match rest with
      | t2 :: rest2 =>
        match contByteVal t2 with
        | some c2 => (utf8DecodeTokens rest2).map (fun cs => Char.ofNat ((b - 192) * 64 + c2) :: cs)
        | none => none
      | [] => none
    else if b < 240 then
      match rest with
      | t2 :: t3 :: rest3 =>
        match contByteVal t2, contByteVal t3 with
        | some c2, some c3 =>
          let n := (b - 224) * 4096 + c2 * 64 + c3
          if n < 2048 || (55296 ≤ n && n < 57344) then none
          else (utf8DecodeTokens rest3).map (fun cs => Char.ofNat n :: cs)
        | _, _ => none
      | _ => none
    else if b < 245 then
      match rest with
      | t2 :: t3 :: t4 :: rest4 =>
        match contByteVal t2, contByteVal t3, contByteVal t4 with
        | some c2, some c3, some c4 =>
          let n := (b - 240) * 262144 + c2 * 4096 + c3 * 64 + c4
          if n < 65536 || n > 1114111 then none
          else (utf8DecodeTokens rest4).map (fun cs => Char.ofNat n :: cs)
        | _, _, _ => none
      | _ => none
    else none

/-- Model of the JS builtin `decodeURIComponent`; `none` models a thrown
URIError. -/
def decodeURIComponent (s : String) : Option String :=
  (percentTokens s.data).bind (fun toks => (utf8DecodeTokens toks).map String.mk)

/-- The options record of `getOptimizedImageUrl`.  Numeric options are
modelled as naturals (the source type `number` also admits non-integral
values, which no caller and no claim exercises); `format` and `resize`
range over fixed keyword sets in the source type. -/
structure ImageTransformOptions where
  width : Option Nat := none
  height : Option Nat := none
  quality : Option Nat := none
  format : Option String := none
  resize : Option String := none
deriving DecidableEq, Repr

/-- The `URLSearchParams` built by `getOptimizedImageUrl`: one `append`
per supplied (and truthy: nonzero / nonempty) option, in source order. -/
def buildParams (o : ImageTransformOptions) : List (String × String) :=
  (match o.width with
   | some w => if w != 0 then [(("width"), toString w)] else []
   | none => []) ++
  (match o.height with
   | some h => if h != 0 then [(("height"), toString h)] else []
   | none => []) ++
  (match o.quality with
   | some q => if q != 0 then [(("quality"), toString q)] else []
   | none => []) ++
  (match o.format with
   | some f => if f != "" then [(("format"), f)] else []
   | none => []) ++
  (match o.resize with
   | some r => if r != "" then [(("resize"), r)] else []
   | none => [])

/-- `URLSearchParams.toString` for the parameters built above.  The
urlencoded serializer escapes nothing in the key/value alphabet reachable
here (decimal digits and the fixed format/resize keywords), so it is the
plain `key=value` join. -/
def paramsToString (ps : List (String × String)) : String :=
  jsJoin ("&") (ps.map (fun p => p.1 ++ ("=") ++ p.2))

/-- `getOptimizedImageUrl`: return data URLs and non-Supabase URLs
unchanged; otherwise split off the storage base, re-encode bucket and path
segments (decode then encode), rebuild under the render path and append
the supplied options as query parameters. -/
def getOptimizedImageUrl (url : Option String) (options : ImageTransformOptions) :
    Except JsError String :=
  match url with
  | none => Except.ok ("")
  | some u =>
    if u = "" then Except.ok ("")
    else if jsStartsWith u ("data:") then Except.ok u
    else if !(jsIncludes u (".supabase.co/storage/v1/object/public/")) then Except.ok u
    else
      let urlParts := jsSplit u ("/storage/v1/object/public/")
      if urlParts.length < 2 then Except.ok u
      else
        let baseUrl := urlParts.headD ("")
        let segs := jsSplit (urlParts.getD 1 ("")) ("/")
        let bucketRaw := segs.headD ("")
        let pathPartsRaw := segs.tail
        match decodeURIComponent bucketRaw with
        | none => Except.error JsError.uriError
        | some decodedBucket =>
          let bucket := encodeURIComponent decodedBucket
          match pathPartsRaw.mapM decodeURIComponent with
          | none => Except.error JsError.uriError
          | some decodedParts =>
            let path := jsJoin ("/") (decodedParts.map encodeURIComponent)
            let renderUrl := baseUrl ++ ("/storage/v1/render/image/public/") ++
              bucket ++ ("/") ++ path
            let queryString := paramsToString (buildParams options)
            Except.ok (if queryString = "" then renderUrl
                       else renderUrl ++ ("?") ++ queryString)

/-! ## Helper lemmas -/

theorem idbPut_of_not_mem (l : List Event) (e : Event)
    (h : ∀ a ∈ l, a.id ≠ e.id) : idbPut l e = l ++ [e] := by
  have hany : l.any (fun x => x.id == e.id) = false := by
    cases hv : l.any (fun x => x.id == e.id) with
    | false => rfl
    | true =>
      obtain ⟨x, hx, hbeq⟩ := List.any_eq_true.mp hv
      exact absurd (by rwa [beq_iff_eq] at hbeq) (h x hx)
  simp [idbPut, hany]

theorem foldl_idbPut_append (S : List Event) : ∀ acc : List Event,
    (∀ e ∈ S, ∀ a ∈ acc, a.id ≠ e.id) → (S.map Event.id).Nodup →
    S.foldl idbPut acc = acc ++ S := by
  induction S with
  | nil => intro acc _ _; simp
  | cons e S ih =>
    intro acc hdisj hnd
    have hnd2 : e.id ∉ S.map Event.id ∧ (S.map Event.id).Nodup := by
      rw [List.map_cons, List.nodup_cons] at hnd; exact hnd
    have hput : idbPut acc e = acc ++ [e] :=
      idbPut_of_not_mem acc e (fun a ha => hdisj e (List.mem_cons_self e S) a ha)
    have hdisj2 : ∀ e2 ∈ S, ∀ a ∈ acc ++ [e], a.id ≠ e2.id := by
      intro e2 he2 a ha
      rcases List.mem_append.mp ha with h | h
      · exact hdisj e2 (List.mem_cons_of_mem e he2) a h
      · have ha2 : a = e := by simpa using h
        subst ha2
        intro heq
        exact hnd2.1 (heq ▸ List.mem_map_of_mem Event.id he2)
    calc (e :: S).foldl idbPut acc = S.foldl idbPut (idbPut acc e) := rfl
      _ = S.foldl idbPut (acc ++ [e]) := by rw [hput]
      _ = (acc ++ [e]) ++ S := ih (acc ++ [e]) hdisj2 hnd2.2
      _ = acc ++ e :: S := by simp

theorem foldl_idbPut_nil (S : List Event) (hnd : (S.map Event.id).Nodup) :
    S.foldl idbPut [] = S := by
  simpa using foldl_idbPut_append S [] (by intro e _ a ha; cases ha) hnd

theorem mem_idbPut_self (l : List Event) (e : Event) : e ∈ idbPut l e := by
  by_cases h : l.any (fun x => x.id == e.id)
  · unfold idbPut
    rw [if_pos h]
    obtain ⟨x, hx, hbeq⟩ := List.any_eq_true.mp h
    exact List.mem_map.mpr ⟨x, hx, by simp [hbeq]⟩
  · unfold idbPut
    rw [if_neg h]
    exact List.mem_append_right l (List.mem_singleton_self e)

theorem stripEvent_media_clean (e : Event) :
    ∀ m ∈ ((stripEvent e).media).getD [], jsStartsWith m.url ("data:") = false := by
  intro m hm
  have hmedia : ((stripEvent e).media).getD [] =
      ((e.media).getD []).filter (fun m => !(jsStartsWith m.url ("data:"))) := rfl
  rw [hmedia] at hm
  simpa using (List.mem_filter.mp hm).2

theorem stripEvent_image_clean (e : Event) :
    ∀ i, (stripEvent e).image = some i → jsStartsWith i ("data:") = false := by
  intro i hi
  have hi2 : (match e.image with
      | some i0 => if jsStartsWith i0 ("data:") then some ("") else some i0
      | none => none) = some i := hi
  cases he : e.image with
  | none => rw [he] at hi2; cases hi2
  | some i0 =>
    rw [he] at hi2
    by_cases hd : jsStartsWith i0 ("data:")
    · simp only [hd, if_true] at hi2
      have hie : ("" : String) = i := by injection hi2
      subst hie
      rfl
    · simp only [hd, if_false] at hi2
      have hie : i0 = i := by injection hi2
      subst hie
      simpa using hd

theorem stripEvent_image_data (e : Event) (i : String) (h1 : e.image = some i)
    (h2 : jsStartsWith i ("data:") = true) : (stripEvent e).image = some ("") := by
  show (match e.image with
      | some i0 => if jsStartsWith i0 ("data:") then some ("") else some i0
      | none => none) = some ("")
  rw [h1]
  simp [h2]

/-! ## Claims -/

/-- C1: for every set `S` of valid event records (unique ids),
`saveAllEvents S` followed by `getAllEvents` on the local structured store
returns a collection equal to `S` as a set, ignoring order. -/
theorem saveAll_getAll_roundtrip (S : List Event) (s snew : StorageState)
    (hnodup : (S.map Event.id).Nodup)
    (hsave : saveAllEvents false S s = Except.ok snew) :
    getAllEvents false snew = Except.ok snew.idb ∧ (∀ e : Event, e ∈ snew.idb ↔ e ∈ S) := by
  have hs : snew = { idb := S.foldl idbPut [],
                     legacy := some (LegacyValue.events (S.map stripEvent)) } := by
    have h2 := hsave
    simp [saveAllEvents] at h2
    exact h2.symm
  have hidb : snew.idb = S := by rw [hs]; exact foldl_idbPut_nil S hnodup
  exact ⟨rfl, fun e => by rw [hidb]⟩

/-- C1 witness: the round trip at a concrete two-record collection. -/
theorem saveAll_getAll_roundtrip_witness :
    (getAllEvents false
      { idb := [{ id := "a" }, { id := "b" }],
        legacy := some (LegacyValue.events
          [{ id := "a", media := some [] }, { id := "b", media := some [] }]) } =
      Except.ok [{ id := "a" }, { id := "b" }]) ∧
    (({ id := "a" } : Event) ∈ ([{ id := "a" }, { id := "b" }] : List Event) ↔
      ({ id := "a" } : Event) ∈ ([{ id := "a" }, { id := "b" }] : List Event)) :=
  have h := saveAll_getAll_roundtrip [{ id := "a" }, { id := "b" }]
    { idb := [], legacy := none }
    { idb := [{ id := "a" }, { id := "b" }],
      legacy := some (LegacyValue.events
        [{ id := "a", media := some [] }, { id := "b", media := some [] }]) }
    (by decide) rfl
  ⟨h.1, h.2 { id := "a" }⟩

/-- C2: after every (successful) `saveAllEvents` call, the JSON array
mirrored into the legacy cache is the stripped copy: it carries no
`data:` media urls and no `data:` cover image, and a record whose cover
image was a `data:` URL is stored with the empty string instead. -/
theorem saveAllEvents_strips_legacy (evs : List Event) (s snew : StorageState)
    (hsave : saveAllEvents false evs s = Except.ok snew) :
    snew.legacy = some (LegacyValue.events (evs.map stripEvent)) ∧
    (∀ e ∈ evs.map stripEvent,
      (∀ m ∈ ((e.media).getD []), jsStartsWith m.url ("data:") = false) ∧
      (∀ i, e.image = some i → jsStartsWith i ("data:") = false)) ∧
    (∀ e ∈ evs, ∀ i, e.image = some i → jsStartsWith i ("data:") = true →
      (stripEvent e).image = some ("")) := by
  have hs : snew = { idb := evs.foldl idbPut [],
                     legacy := some (LegacyValue.events (evs.map stripEvent)) } := by
    have h2 := hsave
    simp [saveAllEvents] at h2
    exact h2.symm
  refine ⟨by rw [hs], ?_, ?_⟩
  · intro e he
    obtain ⟨e0, _, rfl⟩ := List.mem_map.mp he
    exact ⟨stripEvent_media_clean e0, stripEvent_image_clean e0⟩
  · intro e _ i h1 h2
    exact stripEvent_image_data e i h1 h2

/-- C2 witness: a record with a `data:` cover image and a `data:` media
item is mirrored with the media item filtered out and the cover image
replaced by the empty string. -/
theorem saveAllEvents_strips_legacy_witness :
    (({ idb := [{ id := "e", image := some ("data:cover"),
                  media := some [{ id := "m1", type := "image", url := "data:blob" },
                                 { id := "m2", type := "image", url := "https://ok.example/x.jpg" }] }],
        legacy := some (LegacyValue.events
          [{ id := "e", image := some (""),
             media := some [{ id := "m2", type := "image", url := "https://ok.example/x.jpg" }] }]) } :
        StorageState).legacy =
      some (LegacyValue.events
        [{ id := "e", image := some (""),
           media := some [{ id := "m2", type := "image", url := "https://ok.example/x.jpg" }] }])) ∧
    (stripEvent { id := "e", image := some ("data:cover"),
                  media := some [{ id := "m1", type := "image", url := "data:blob" },
                                 { id := "m2", type := "image", url := "https://ok.example/x.jpg" }] }).image =
      some ("") :=
  have h := saveAllEvents_strips_legacy
    [{ id := "e", image := some ("data:cover"),
       media := some [{ id := "m1", type := "image", url := "data:blob" },
                      { id := "m2", type := "image", url := "https://ok.example/x.jpg" }] }]
    { idb := [], legacy := none }
    { idb := [{ id := "e", image := some ("data:cover"),
                media := some [{ id := "m1", type := "image", url := "data:blob" },
                               { id := "m2", type := "image", url := "https://ok.example/x.jpg" }] }],
      legacy := some (LegacyValue.events
        [{ id := "e", image := some (""),
           media := some [{ id := "m2", type := "image", url := "https://ok.example/x.jpg" }] }]) }
    rfl
  ⟨h.1,
   h.2.2 { id := "e", image := some ("data:cover"),
           media := some [{ id := "m1", type := "image", url := "data:blob" },
                          { id := "m2", type := "image", url := "https://ok.example/x.jpg" }] }
         (List.mem_singleton_self _) ("data:cover") rfl rfl⟩

/-- C3: with a populated (working) local store, a remote GET failure —
non-2xx response or network error — makes `syncEventsWithSupabase` return
exactly the store's current contents, without throwing. -/
theorem syncEvents_remote_failure_fallback (remote : FetchEventsResult)
    (hr : remote = FetchEventsResult.httpError ∨ remote = FetchEventsResult.networkError)
    (s : StorageState) :
    syncEventsWithSupabase remote false s = Except.ok (s.idb, s) := by
  rcases hr with hr | hr <;> subst hr <;> rfl

/-- C3 witness: fallback at a concrete populated store and an HTTP 500. -/
theorem syncEvents_remote_failure_fallback_witness :
    syncEventsWithSupabase FetchEventsResult.httpError false
      { idb := [{ id := "a" }], legacy := none } =
    Except.ok ([{ id := "a" }], { idb := [{ id := "a" }], legacy := none }) :=
  syncEvents_remote_failure_fallback FetchEventsResult.httpError (Or.inl rfl)
    { idb := [{ id := "a" }], legacy := none }

/-- C4: `deleteEventWithSync` removes the record with the given id from
the local structured store whatever the remote DELETE outcome (2xx,
non-2xx, or network error), and removes nothing else. -/
theorem deleteEventWithSync_always_local (remote : DeleteEventResult)
    (eventId : String) (s : StorageState) :
    ∃ snew, deleteEventWithSync remote false eventId s = Except.ok snew ∧
      (∀ e ∈ snew.idb, e.id ≠ eventId) ∧
      (∀ e ∈ s.idb, e.id ≠ eventId → e ∈ snew.idb) := by
  refine ⟨{ s with idb := s.idb.filter (fun e => e.id != eventId) }, ?_, ?_, ?_⟩
  · cases remote <;> rfl
  · intro e he
    simpa using (List.mem_filter.mp he).2
  · intro e he hne
    exact List.mem_filter.mpr ⟨he, by simpa using hne⟩

/-- C5 counterexample: the caller-supplied `eventData` is spread last, so
an `eventData` carrying `id`/`createdAt`/`updatedAt` keys makes the
record returned on remote-create failure have an empty id and unequal
timestamps that differ from the call time, although the generated UUID
(`"gen-uuid"`) is non-empty. -/
theorem create_synth_fields_cex :
    (createEventWithSync CreateEventResult.httpError false ("gen-uuid")
        ("2026-01-01T00:00:00.000Z")
        { id := some (""), createdAt := some ("2020-01-01"), updatedAt := some ("2021-01-01") }
        { idb := [], legacy := none }).toOption.map
      (fun r => (r.1.id, r.1.createdAt, r.1.updatedAt)) =
    some (("", some ("2020-01-01"), some ("2021-01-01"))) := by
  decide

/-- C5 (amended): whenever the remote create fails and `eventData` itself
carries no `id`, `createdAt` or `updatedAt` key, the synthesized record
returned has the non-empty generated id and equal `createdAt`/`updatedAt`
timestamps set to the call time. -/
theorem create_synth_fields (remote : CreateEventResult)
    (hr : remote = CreateEventResult.httpError ∨ remote = CreateEventResult.networkError)
    (genId now : String) (hgen : genId ≠ "")
    (d : EventData) (hid : d.id = none) (hc : d.createdAt = none) (hu : d.updatedAt = none)
    (s : StorageState) :
    ∃ ev snew, createEventWithSync remote false genId now d s = Except.ok (ev, snew) ∧
      ev.id = genId ∧ ev.id ≠ "" ∧ ev.createdAt = some now ∧ ev.updatedAt = some now := by
  have hmain : createEventWithSync remote false genId now d s =
      createEventLocalFallback false genId now d s := by
    rcases hr with hr | hr <;> subst hr <;> rfl
  have hev : createEventLocalFallback false genId now d s =
      Except.ok (mkLocalEvent genId now d,
        { idb := (s.idb ++ [mkLocalEvent genId now d]).foldl idbPut [],
          legacy := some (LegacyValue.events
            ((s.idb ++ [mkLocalEvent genId now d]).map stripEvent)) }) := rfl
  refine ⟨mkLocalEvent genId now d,
    { idb := (s.idb ++ [mkLocalEvent genId now d]).foldl idbPut [],
      legacy := some (LegacyValue.events
        ((s.idb ++ [mkLocalEvent genId now d]).map stripEvent)) },
    by rw [hmain, hev], ?_, ?_, ?_, ?_⟩
  · simp [mkLocalEvent, hid]
  · simpa [mkLocalEvent, hid] using hgen
  · simp [mkLocalEvent, hc]
  · simp [mkLocalEvent, hu]

/-- C5 witness: the amended statement at a concrete failed create with an
`eventData` that has only a title. -/
theorem create_synth_fields_witness :
    ∃ ev snew,
      createEventWithSync CreateEventResult.httpError false ("uuid-1")
        ("2026-02-02T00:00:00.000Z") { title := some ("t") }
        { idb := [], legacy := none } = Except.ok (ev, snew) ∧
      ev.id = ("uuid-1") ∧ ev.id ≠ "" ∧
      ev.createdAt = some ("2026-02-02T00:00:00.000Z") ∧
      ev.updatedAt = some ("2026-02-02T00:00:00.000Z") :=
  create_synth_fields CreateEventResult.httpError (Or.inl rfl) ("uuid-1")
    ("2026-02-02T00:00:00.000Z") (by decide) { title := some ("t") } rfl rfl rfl
    { idb := [], legacy := none }

/-- Helper for the amended C6: a list of records already in stripped form
is fixed by the per-record strip map. -/
theorem map_stripEvent_eq_self (evs : List Event) (h : ∀ e ∈ evs, stripEvent e = e) :
    evs.map stripEvent = evs := by
  induction evs with
  | nil => rfl
  | cons e t ih =>
    simp only [List.map_cons]
    rw [h e (List.mem_cons_self e t), ih (fun x hx => h x (List.mem_cons_of_mem e hx))]

/-- C6 counterexample: starting from a legacy cache holding one record
with an embedded-encoded cover image, running the migration once puts the
original record (cover `"data:img"`, no media key) in the structured
store, while running it twice puts the stripped record (cover `""`,
media `[]`) there — the routine rewrites the legacy cache with the
stripped copy, so the second run migrates different data. -/
theorem migrate_idempotent_cex :
    (migrateFromLocalStorage false (migrateFromLocalStorage false
        { idb := [],
          legacy := some (LegacyValue.events [{ id := "e1", image := some ("data:img") }]) })).idb ≠
    (migrateFromLocalStorage false
        { idb := [],
          legacy := some (LegacyValue.events [{ id := "e1", image := some ("data:img") }]) }).idb := by
  decide

/-- C6 (amended): the migration routine is idempotent — running it twice
equals running it once — provided every record in the legacy cache is
already in stripped form (an explicit media list free of `data:` urls and
a cover image that is not a `data:` URL), i.e. is fixed by the strip
map applied on every write. -/
theorem migrate_idempotent_stripped (s : StorageState)
    (h : ∀ evs, s.legacy = some (LegacyValue.events evs) → ∀ e ∈ evs, stripEvent e = e) :
    migrateFromLocalStorage false (migrateFromLocalStorage false s) =
      migrateFromLocalStorage false s := by
  cases hl : s.legacy with
  | none => simp [migrateFromLocalStorage, hl]
  | some v =>
    cases v with
    | corrupt => simp [migrateFromLocalStorage, hl, jsonParseEvents]
    | events evs =>
      have hstrip : evs.map stripEvent = evs :=
        map_stripEvent_eq_self evs (h evs hl)
      have h1 : migrateFromLocalStorage false s =
          { idb := evs.foldl idbPut [], legacy := some (LegacyValue.events evs) } := by
        simp [migrateFromLocalStorage, hl, jsonParseEvents, saveAllEvents, hstrip]
      rw [h1]
      simp [migrateFromLocalStorage, jsonParseEvents, saveAllEvents, hstrip]

/-- C6 witness: idempotence at a concrete stripped-form legacy cache. -/
theorem migrate_idempotent_stripped_witness :
    migrateFromLocalStorage false (migrateFromLocalStorage false
      { idb := [], legacy := some (LegacyValue.events [{ id := "a", media := some [] }]) }) =
    migrateFromLocalStorage false
      { idb := [], legacy := some (LegacyValue.events [{ id := "a", media := some [] }]) } :=
  migrate_idempotent_stripped
    { idb := [], legacy := some (LegacyValue.events [{ id := "a", media := some [] }]) }
    (fun evs heq => by
      have h2 : LegacyValue.events [{ id := "a", media := some [] }] =
          LegacyValue.events evs := Option.some.inj heq
      have h3 : ([{ id := "a", media := some [] }] : List Event) = evs := by injection h2
      subst h3
      intro e he
      have he2 : e = { id := "a", media := some [] } := by simpa using he
      subst he2
      decide)

/-- C7: the image URL transform rewrites a Supabase public-object URL to
the render path with decode-then-encode re-encoded segments and exactly
the supplied options, in source order, as the query string. -/
theorem getOptimizedImageUrl_transform_correct :
    getOptimizedImageUrl (some ("https://X.supabase.co/storage/v1/object/public/b/p.jpg"))
      { width := some 640, format := some ("webp") } =
    Except.ok ("https://X.supabase.co/storage/v1/render/image/public/b/p.jpg?width=640&format=webp") := by
  rfl

/-- C8: any url that is a `data:` URL or is not recognized as a Supabase
storage object URL is returned unchanged, whatever the options, without
throwing. -/
theorem getOptimizedImageUrl_nonmatching (u : String) (o : ImageTransformOptions)
    (h : jsStartsWith u ("data:") = true ∨
         jsIncludes u (".supabase.co/storage/v1/object/public/") = false) :
    getOptimizedImageUrl (some u) o = Except.ok u := by
  by_cases hu : u = ""
  · subst hu
    rfl
  · simp only [getOptimizedImageUrl]
    rw [if_neg hu]
    rcases h with h | h
    · rw [if_pos h]
    · by_cases hd : jsStartsWith u ("data:") = true
      · rw [if_pos hd]
      · rw [if_neg hd]
        have h3 : (!(jsIncludes u (".supabase.co/storage/v1/object/public/"))) = true := by
          rw [h]
          rfl
        rw [if_pos h3]

/-- C8 witness: a non-Supabase https URL is returned unchanged. -/
theorem getOptimizedImageUrl_nonmatching_witness :
    getOptimizedImageUrl (some ("https://example.com/foo.jpg")) { width := some 100 } =
      Except.ok ("https://example.com/foo.jpg") :=
  getOptimizedImageUrl_nonmatching ("https://example.com/foo.jpg") { width := some 100 }
    (Or.inr (by decide))

/-- C9 counterexample: with the structured store faulting and the legacy
slot holding a string `JSON.parse` rejects (e.g. a lone brace),
`getAllEvents` does not fall back to an empty collection — the parse
happens inside the catch block, so the SyntaxError propagates and the
call rejects. -/
theorem getAllEvents_fault_cex :
    getAllEvents true { idb := [], legacy := some LegacyValue.corrupt } =
      Except.error JsError.syntaxError := rfl

/-- C9 (amended): `getAllEvents` never throws provided the legacy value,
when present, is well-formed JSON (which every write by this module
guarantees): without a fault it returns the store contents; on a fault it
returns the parsed legacy content, or the empty collection when the
legacy key is absent. -/
theorem getAllEvents_fault_fallback (idbFault : Bool) (s : StorageState)
    (h : s.legacy ≠ some LegacyValue.corrupt) :
    getAllEvents idbFault s =
      Except.ok (if idbFault then
        (match s.legacy with
         | some (LegacyValue.events evs) => evs
         | _ => [])
        else s.idb) := by
  cases idbFault with
  | false => rfl
  | true =>
    cases hl : s.legacy with
    | none => simp [getAllEvents, hl]
    | some v =>
      cases v with
      | events evs => simp [getAllEvents, jsonParseEvents, hl]
      | corrupt => exact absurd hl h

/-- C9 witness: the faulting read at a concrete well-formed legacy cache
returns that cache's content. -/
theorem getAllEvents_fault_fallback_witness :
    getAllEvents true { idb := [], legacy := some (LegacyValue.events [{ id := "a" }]) } =
      Except.ok [{ id := "a" }] :=
  getAllEvents_fault_fallback true
    { idb := [], legacy := some (LegacyValue.events [{ id := "a" }]) } (by decide)

/-- C10: in the local-fallback path of `createEventWithSync`, the
caller-supplied `eventData` is spread after the generated fields, so any
`id`/`createdAt`/`updatedAt` keys it carries override the generated id
and call-time timestamps in the record that is returned and persisted;
the generated values are used exactly when the keys are absent. -/
theorem create_spread_override (remote : CreateEventResult)
    (hr : remote = CreateEventResult.httpError ∨ remote = CreateEventResult.networkError)
    (genId now : String) (d : EventData) (s : StorageState) :
    ∃ ev snew, createEventWithSync remote false genId now d s = Except.ok (ev, snew) ∧
      ev.id = (d.id).getD genId ∧
      ev.createdAt = some ((d.createdAt).getD now) ∧
      ev.updatedAt = some ((d.updatedAt).getD now) ∧
      ev ∈ snew.idb := by
  have hmain : createEventWithSync remote false genId now d s =
      createEventLocalFallback false genId now d s := by
    rcases hr with hr | hr <;> subst hr <;> rfl
  refine ⟨mkLocalEvent genId now d,
    { idb := (s.idb ++ [mkLocalEvent genId now d]).foldl idbPut [],
      legacy := some (LegacyValue.events
        ((s.idb ++ [mkLocalEvent genId now d]).map stripEvent)) },
    by rw [hmain]; exact rfl, rfl, rfl, rfl, ?_⟩
  show mkLocalEvent genId now d ∈ (s.idb ++ [mkLocalEvent genId now d]).foldl idbPut []
  rw [List.foldl_append]
  exact mem_idbPut_self _ _

/-- C10 witness: a failed create whose `eventData` carries `id` and
`createdAt` keys but no `updatedAt` key keeps the caller's id and
createdAt and takes the call-time updatedAt. -/
theorem create_spread_override_witness :
    ∃ ev snew,
      createEventWithSync CreateEventResult.networkError false ("uuid-2")
        ("2026-03-03T00:00:00.000Z")
        { id := some ("caller-id"), createdAt := some ("2019-01-01") }
        { idb := [], legacy := none } = Except.ok (ev, snew) ∧
      ev.id = ("caller-id") ∧
      ev.createdAt = some ("2019-01-01") ∧
      ev.updatedAt = some ("2026-03-03T00:00:00.000Z") ∧
      ev ∈ snew.idb :=
  create_spread_override CreateEventResult.networkError (Or.inr rfl) ("uuid-2")
    ("2026-03-03T00:00:00.000Z") { id := some ("caller-id"), createdAt := some ("2019-01-01") }
    { idb := [], legacy := none }
